import Mathlib

/-!
Shallow embedding of `timewasted/go-webserver` (files `server.go` and the
listener file) and verification of the frozen claims about it.

Modelling conventions:
* `net.Conn` identities are `Nat`.
* Go errors are the inductive `SrvError`; a `nil` error is `none` in an
  `Option SrvError`, and `(value, error)` pairs become `Except` / products.
* The atomic `listening int32` field is a `Bool` (`≠ 0`).
* The `sync.WaitGroup` counter is an `Int` (`wg.Add/Done` arithmetic).
* `idleConns map[net.Conn]struct{}` is a `Finset Nat`.
* Interactions with the network (the underlying `net.Listener`) are passed
  in as explicit parameters: the result the underlying `Accept`/`Close`/bind
  would produce.
-/

/-- `http.ConnState` values observed by the tracker. -/
inductive ConnState
  | New
  | Active
  | Idle
  | Hijacked
  | Closed
  deriving DecidableEq, Repr

/-- Go error values that appear in the package: wrapped listener-closed and
graceful-shutdown errors, the two sequencing errors of `server.go`, and
opaque errors from the network layer (`netErr`). -/
inductive SrvError
  | netErr (code : Nat)
  | listenerClosed (inner : SrvError)
  | gracefulShutdown (inner : SrvError)
  | listenerAlreadyCreated
  | listenerNotYetCreated
  deriving DecidableEq, Repr

/-- `err.(ErrListenerClosed)` type assertion. -/
def SrvError.isListenerClosed : SrvError → Bool
  | .listenerClosed _ => true
  | _ => false

/-- `WebServerListener`: the wrapper around `net.Listener` with the atomic
`listening` flag. The underlying transport listener itself is not part of
the state; its responses are supplied at each call. -/
structure WebServerListener where
  listening : Bool
  deriving DecidableEq, Repr

/-- Package-level `Listen(network, laddr, tlsConfig)`: binds the underlying
listener (its outcome is the `bind` argument) and on success returns a
wrapper with `listening = 1`. -/
def Listen (bind : Except SrvError Unit) : Except SrvError WebServerListener :=
  match bind with
  | .error e => .error e
  | .ok _ => .ok { listening := true }

/-- Alias for the package-level `Listen`, usable inside `WebServer.Listen`
(whose own name would otherwise shadow it). -/
def listenPackage : Except SrvError Unit → Except SrvError WebServerListener :=
  Listen

/-- `Listening()`: atomic load of the flag. -/
def WebServerListener.Listening (l : WebServerListener) : Bool :=
  l.listening

/-- `Accept()`: delegates to the underlying accept (`underlying`); if it
failed and the wrapper is no longer listening, the error is replaced by
`ErrListenerClosed` wrapping it, otherwise conn and error are returned
unchanged. -/
def WebServerListener.Accept (l : WebServerListener)
    (underlying : Except SrvError Nat) : Except SrvError Nat :=
  match underlying with
  | .ok conn => .ok conn
  | .error e =>
      if ¬ l.Listening then .error (.listenerClosed e)
      else .error e

/-- `Close()`: if not listening, return `nil` with no effect; otherwise
store 0 into the flag and return the underlying listener's close result
(`underlyingClose`). Returns the new wrapper state and the Go error. -/
def WebServerListener.Close (l : WebServerListener)
    (underlyingClose : Option SrvError) : WebServerListener × Option SrvError :=
  if ¬ l.Listening then (l, none)
  else ({ l with listening := false }, underlyingClose)

/-- `WebServer`: the coordinator. `wg`/`idleConns` are the tracker state;
`keepAlives` mirrors `http.Server.SetKeepAlivesEnabled`; `addr` mirrors
`http.Server.Addr`. -/
structure WebServer where
  listener : WebServerListener
  addr : Option String
  keepAlives : Bool
  wg : Int
  idleConns : Finset Nat
  deriving DecidableEq

/-- `New()`: zero-valued listener (`listening = 0`), empty idle set. -/
def WebServer.New : WebServer :=
  { listener := { listening := false }
    addr := none
    keepAlives := true
    wg := 0
    idleConns := ∅ }

/-- Method `Listen(addr)`: fails with `errListenerAlreadyCreated` when the
current listener is listening; otherwise calls package `Listen` (the
underlying bind outcome is `bind`) and on success installs the new listener
and records the address. -/
def WebServer.Listen (s : WebServer) (addr : String)
    (bind : Except SrvError Unit) : WebServer × Option SrvError :=
  if s.listener.Listening then (s, some .listenerAlreadyCreated)
  else
    match listenPackage bind with
    | .error e => (s, some e)
    | .ok l => ({ s with listener := l, addr := some addr }, none)

/-- `Serve(errChan)` up to spawning the goroutine: fails with
`errListenerNotYetCreated` when the listener is not listening and starts
nothing; otherwise starts the accept-loop goroutine (the returned `Bool`)
and returns `nil` after the `servingChan` handshake. -/
def WebServer.Serve (s : WebServer) : WebServer × Option SrvError × Bool :=
  if ¬ s.listener.Listening then (s, some .listenerNotYetCreated, false)
  else (s, none, true)

/-- The tail of the goroutine started by `Serve`, from the moment
`s.Server.Serve` returned error `err`: if that error is `ErrListenerClosed`,
wait on the WaitGroup (first component `true`) and wrap the error in
`ErrGracefulShutdown`; then send exactly once on `errChan` (the returned
list is the sequence of channel sends). -/
def serveGoroutineTail (err : SrvError) : Bool × List SrvError :=
  if err.isListenerClosed then (true, [.gracefulShutdown err])
  else (false, [err])

/-- `Shutdown()`: no-op when not listening; otherwise disable keep-alives
and close the listener, discarding the error returned by `Close`. -/
def WebServer.Shutdown (s : WebServer) (underlyingClose : Option SrvError) :
    WebServer :=
  if ¬ s.listener.Listening then s
  else
    { s with keepAlives := false
             listener := (s.listener.Close underlyingClose).1 }

/-- `RoutineStarted()`: `wg.Add(1)`. -/
def WebServer.RoutineStarted (s : WebServer) : WebServer :=
  { s with wg := s.wg + 1 }

/-- `RoutineFinished()`: `wg.Done()`. -/
def WebServer.RoutineFinished (s : WebServer) : WebServer :=
  { s with wg := s.wg - 1 }

/-- `connStateTracker(c, state)`: the switch in `server.go`. New/Active:
`wg.Add(1)`. Idle: `wg.Done()` first if `c` was not yet idle, insert `c`
into `idleConns`, then `wg.Done()`. Hijacked/Closed: delete `c` if idle,
else `wg.Add(-2)`. (The trailing forward to the user's `ConnState` observer
does not touch tracker state and is not modelled.) -/
def WebServer.connStateTracker (s : WebServer) (c : Nat) (st : ConnState) :
    WebServer :=
  match st with
  | .New | .Active => { s with wg := s.wg + 1 }
  | .Idle =>
      let s1 := if c ∈ s.idleConns then s else { s with wg := s.wg - 1 }
      let s2 := { s1 with idleConns := insert c s1.idleConns }
      { s2 with wg := s2.wg - 1 }
  | .Hijacked | .Closed =>
      if c ∈ s.idleConns then { s with idleConns := s.idleConns.erase c }
      else { s with wg := s.wg - 2 }

/-- The §4.2 table's counter delta as a pure function of previous
idle-membership and new state, written from the spec's words (to be
compared with `WebServer.connStateTracker`). -/
def specDelta (wasIdle : Bool) : ConnState → Int
  | .New | .Active => 1
  | .Idle => if wasIdle then -1 else -2
  | .Hijacked | .Closed => if wasIdle then 0 else -2

/-- The §4.2 table's new idle-membership for the transitioning connection,
written from the spec's words. -/
def specMemberAfter (wasIdle : Bool) : ConnState → Bool
  | .New | .Active => wasIdle
  | .Idle => true
  | .Hijacked | .Closed => false

/-- Events processed by the server's shutdown bookkeeping: a connection
transition delivered to `connStateTracker`, or one of the manual
registration calls. -/
inductive TrackEvent
  | conn (c : Nat) (st : ConnState)
  | routineStarted
  | routineFinished
  deriving DecidableEq, Repr

/-- One bookkeeping event applied to the server state. -/
def WebServer.step (s : WebServer) : TrackEvent → WebServer
  | .conn c st => s.connStateTracker c st
  | .routineStarted => s.RoutineStarted
  | .routineFinished => s.RoutineFinished

/-- Process a finite event trace in the order it was delivered. -/
def runEvents (s : WebServer) (tr : List TrackEvent) : WebServer :=
  tr.foldl WebServer.step s

/-- The subsequence of states delivered for connection `c`, in order. -/
def connEvents (c : Nat) (tr : List TrackEvent) : List ConnState :=
  tr.filterMap fun e =>
    match e with
    | .conn cc st => if cc = c then some st else none
    | _ => none

/-- Accumulate the set of connections mentioned by a trace. -/
def connsStep (acc : Finset Nat) : TrackEvent → Finset Nat
  | .conn c _ => insert c acc
  | _ => acc

/-- Connections mentioned in a trace. -/
def connsOf (tr : List TrackEvent) : Finset Nat :=
  tr.foldl connsStep ∅

/-- Net effect on `wg` of the manual registration calls in a trace. -/
def routineBal (tr : List TrackEvent) : Int :=
  tr.foldl
    (fun acc e =>
      match e with
      | .routineStarted => acc + 1
      | .routineFinished => acc - 1
      | _ => acc) 0

/-- One-step evolution of a single connection's idle-membership under the
tracker: Idle sets it, Hijacked/Closed clear it, New/Active leave it. -/
def memStep (m : Bool) : ConnState → Bool
  | .Idle => true
  | .Hijacked => false
  | .Closed => false
  | .New => m
  | .Active => m

/-- A connection's idle-membership after a list of its own states. -/
def memFold (m : Bool) (l : List ConnState) : Bool :=
  l.foldl memStep m

/-- The `wg` delta the tracker applies for one transition, as a function of
the connection's current idle-membership (read off the switch in
`connStateTracker`). -/
def deltaOf (m : Bool) : ConnState → Int
  | .New | .Active => 1
  | .Idle => if m then -1 else -2
  | .Hijacked | .Closed => if m then 0 else -2

/-- Total `wg` contribution of one connection's state subsequence, starting
from idle-membership `m` and accumulator `acc`. -/
def contribFrom (m : Bool) (acc : Int) : List ConnState → Int
  | [] => acc
  | st :: rest => contribFrom (memStep m st) (acc + deltaOf m st) rest

/-- Net `wg` contribution of a fresh connection's state subsequence. -/
def netContrib (l : List ConnState) : Int :=
  contribFrom false 0 l

/-- The most recent state delivered for `c` in the trace, if any. -/
def lastConnState (c : Nat) (tr : List TrackEvent) : Option ConnState :=
  (connEvents c tr).foldl (fun _ st => some st) none

/-- Remember the most recent membership-affecting state (Idle, Hijacked or
Closed); New and Active are skipped. -/
def membershipUpd (o : Option ConnState) (st : ConnState) : Option ConnState :=
  match st with
  | .Idle | .Hijacked | .Closed => some st
  | _ => o

/-- The most recent membership-affecting state delivered for `c`. -/
def lastMembershipEvent (c : Nat) (tr : List TrackEvent) : Option ConnState :=
  (connEvents c tr).foldl membershipUpd none

/-- Continuation of a keepalive connection's lifecycle after its first
Idle: any number of Active–Idle request cycles, then a terminal state
entered from idle. -/
def idleCycles : List ConnState → Bool
  | [] => false
  | [st] => st == .Closed || st == .Hijacked
  | st1 :: st2 :: rest => st1 == .Active && st2 == .Idle && idleCycles rest

/-- What may follow the initial `New, Active` of a lifecycle: either an
immediate terminal state (keepalives disabled), or a first Idle followed by
request cycles terminating from idle. -/
def tailOk : List ConnState → Bool
  | [.Closed] => true
  | [.Hijacked] => true
  | .Idle :: rest => idleCycles rest
  | _ => false

/-- The two connection lifecycles described by the tracker's comment:
`New, Active, Closed/Hijacked` (keepalives disabled), or
`New, Active, Idle, (Active, Idle)*, Closed/Hijacked` (keepalives
enabled, terminating from the idle state). -/
def goodLifecycle : List ConnState → Bool
  | .New :: .Active :: rest => tailOk rest
  | _ => false

/-- The counterexample trace for the drain claim: a keepalive connection
idles once, goes active again for a second request, and is closed from the
active state. Its transition sequence ends with Closed. -/
def cexTrace : List TrackEvent :=
  [.conn 0 .New, .conn 0 .Active, .conn 0 .Idle, .conn 0 .Active,
   .conn 0 .Closed]

/-- A trace whose connection has most recently been Active although it
entered the idle set earlier and was never closed. -/
def c6Trace : List TrackEvent :=
  [.conn 0 .New, .conn 0 .Active, .conn 0 .Idle, .conn 0 .Active]

/-- A well-formed trace: one keepalive connection (two requests), one
non-keepalive connection, one registered background routine. -/
def goodTrace : List TrackEvent :=
  [.routineStarted, .conn 0 .New, .conn 0 .Active, .conn 0 .Idle,
   .conn 1 .New, .conn 1 .Active, .routineFinished, .conn 0 .Active,
   .conn 0 .Idle, .conn 0 .Closed, .conn 1 .Closed]

/-- Listener operations a client can issue after `Listen`, each carrying
the underlying listener's response where one is consumed. -/
inductive LOp
  | listeningQuery
  | acceptCall (u : Except SrvError Nat)
  | closeCall (r : Option SrvError)

/-- Effect of one listener operation on the wrapper state (`Listening` and
`Accept` never write the flag; `Close` is the only writer). -/
def LOp.apply (l : WebServerListener) : LOp → WebServerListener
  | .listeningQuery => l
  | .acceptCall _ => l
  | .closeCall r => (l.Close r).1

/-- Run a sequence of listener operations. -/
def runLOps (l : WebServerListener) (ops : List LOp) : WebServerListener :=
  ops.foldl LOp.apply l

/-- A coordinator whose listener is live (as after a successful `Listen`). -/
def listeningServer : WebServer :=
  { WebServer.New with listener := { listening := true } }

/-- The coordinator after a successful `Listen` followed by `Shutdown`:
a terminated serve session. -/
def postShutdownServer : WebServer :=
  ((WebServer.New.Listen "addr" (Except.ok ())).1).Shutdown none

/-- C2: for every (previous idle-membership, new state) pair, the tracker
changes `wg` by exactly the §4.2 delta (+1 for New/Active; −2 for a first
Idle, −1 for a repeated Idle; 0 for Hijacked/Closed from the idle set, −2
otherwise) and moves the connection's idle-membership exactly as the table
specifies. -/
theorem connStateTracker_matches_spec_table (s : WebServer) (c : Nat)
    (st : ConnState) :
    (s.connStateTracker c st).wg
      = s.wg + specDelta (decide (c ∈ s.idleConns)) st
    ∧ ((c ∈ (s.connStateTracker c st).idleConns)
      ↔ specMemberAfter (decide (c ∈ s.idleConns)) st = true) := by
  cases st <;>
    simp only [WebServer.connStateTracker, specDelta, specMemberAfter] <;>
    by_cases h : c ∈ s.idleConns <;>
    simp [h, Finset.mem_insert, Finset.mem_erase] <;> ring

/-- C4: a failing `Accept` while the flag is false returns
`ErrListenerClosed` wrapping the underlying error; while the flag is true
the underlying error is propagated unchanged; and after any `Close` every
subsequent `Accept` failure is `ErrListenerClosed`, whatever the transport
error was. -/
theorem accept_error_classification (e : SrvError) (r : Option SrvError)
    (l : WebServerListener) :
    (WebServerListener.Accept { listening := false } (.error e)
      = .error (.listenerClosed e))
    ∧ (WebServerListener.Accept { listening := true } (.error e) = .error e)
    ∧ ((l.Close r).1.Accept (.error e) = .error (.listenerClosed e)) := by
  refine ⟨rfl, rfl, ?_⟩
  cases l with
  | mk listening =>
      cases listening <;>
        simp [WebServerListener.Close, WebServerListener.Accept,
          WebServerListener.Listening]

/-- C5: the first `Close` while listening flips the flag to false and
returns the underlying close result; any later `Close` returns no error,
changes nothing, and leaves `Listening()` false. (The flag store happening
before the underlying close is an ordering fact inside one call; the
observable state/result behaviour is proved here.) -/
theorem close_idempotent (r r2 : Option SrvError) :
    (WebServerListener.Close { listening := true } r
      = ({ listening := false }, r))
    ∧ ((WebServerListener.Close { listening := true } r).1.Close r2
      = ((WebServerListener.Close { listening := true } r).1, none))
    ∧ (WebServerListener.Close { listening := true } r).1.Listening = false
    ∧ ((WebServerListener.Close { listening := true } r).1.Close r2).1.Listening
      = false := by
  refine ⟨rfl, rfl, rfl, rfl⟩

theorem runEvents_nil (s : WebServer) : runEvents s [] = s := rfl

theorem runEvents_cons (s : WebServer) (e : TrackEvent) (tr : List TrackEvent) :
    runEvents s (e :: tr) = runEvents (s.step e) tr := rfl

theorem runEvents_append (s : WebServer) (tr tr2 : List TrackEvent) :
    runEvents s (tr ++ tr2) = runEvents (runEvents s tr) tr2 :=
  List.foldl_append _ _ _ _

theorem connEvents_nil (c : Nat) : connEvents c [] = [] := rfl

theorem connEvents_append (c : Nat) (tr tr2 : List TrackEvent) :
    connEvents c (tr ++ tr2) = connEvents c tr ++ connEvents c tr2 := by
  simp [connEvents]

theorem connEvents_single_self (c : Nat) (st : ConnState) :
    connEvents c [.conn c st] = [st] := by
  simp [connEvents]

theorem connEvents_single_other (c cc : Nat) (st : ConnState) (h : cc ≠ c) :
    connEvents c [.conn cc st] = [] := by
  simp [connEvents, h]

theorem connEvents_single_started (c : Nat) :
    connEvents c [.routineStarted] = [] := rfl

theorem connEvents_single_finished (c : Nat) :
    connEvents c [.routineFinished] = [] := rfl

theorem memFold_nil (b : Bool) : memFold b [] = b := rfl

theorem memFold_cons (b : Bool) (st : ConnState) (l : List ConnState) :
    memFold b (st :: l) = memFold (memStep b st) l := rfl

theorem routineBal_append_conn (tr : List TrackEvent) (c : Nat) (st : ConnState) :
    routineBal (tr ++ [.conn c st]) = routineBal tr := by
  simp [routineBal, List.foldl_append]

theorem routineBal_append_started (tr : List TrackEvent) :
    routineBal (tr ++ [.routineStarted]) = routineBal tr + 1 := by
  simp [routineBal, List.foldl_append]

theorem routineBal_append_finished (tr : List TrackEvent) :
    routineBal (tr ++ [.routineFinished]) = routineBal tr - 1 := by
  simp [routineBal, List.foldl_append]

theorem mem_foldl_connsStep (tr : List TrackEvent) :
    ∀ (S : Finset Nat) (c : Nat),
    (c ∈ tr.foldl connsStep S) ↔ (c ∈ S ∨ ∃ st, TrackEvent.conn c st ∈ tr) := by
  induction tr with
  | nil => intro S c; simp
  | cons e tr ih =>
      intro S c
      cases e <;>
        simp only [List.foldl_cons, connsStep, ih, Finset.mem_insert,
          List.mem_cons] <;>
        aesop

theorem mem_connsOf (tr : List TrackEvent) (c : Nat) :
    c ∈ connsOf tr ↔ ∃ st, TrackEvent.conn c st ∈ tr := by
  rw [connsOf, mem_foldl_connsStep]
  simp

theorem connsOf_append_conn (tr : List TrackEvent) (c : Nat) (st : ConnState) :
    connsOf (tr ++ [.conn c st]) = insert c (connsOf tr) := by
  ext x
  simp only [mem_connsOf, Finset.mem_insert, List.mem_append, List.mem_cons,
    List.not_mem_nil, or_false]
  constructor
  · rintro ⟨st2, h2 | h2⟩
    · exact Or.inr ⟨st2, h2⟩
    · cases h2; exact Or.inl rfl
  · rintro (h | ⟨st2, h2⟩)
    · subst h; exact ⟨st, Or.inr rfl⟩
    · exact ⟨st2, Or.inl h2⟩

theorem connsOf_append_started (tr : List TrackEvent) :
    connsOf (tr ++ [.routineStarted]) = connsOf tr := by
  ext x
  simp only [mem_connsOf, List.mem_append, List.mem_cons, List.not_mem_nil,
    or_false]
  constructor
  · rintro ⟨st2, h2 | h2⟩
    · exact ⟨st2, h2⟩
    · cases h2
  · rintro ⟨st2, h2⟩
    exact ⟨st2, Or.inl h2⟩

theorem connsOf_append_finished (tr : List TrackEvent) :
    connsOf (tr ++ [.routineFinished]) = connsOf tr := by
  ext x
  simp only [mem_connsOf, List.mem_append, List.mem_cons, List.not_mem_nil,
    or_false]
  constructor
  · rintro ⟨st2, h2 | h2⟩
    · exact ⟨st2, h2⟩
    · cases h2
  · rintro ⟨st2, h2⟩
    exact ⟨st2, Or.inl h2⟩

theorem connEvents_eq_nil_of_not_mem (tr : List TrackEvent) (c : Nat)
    (h : c ∉ connsOf tr) : connEvents c tr = [] := by
  rw [mem_connsOf] at h
  push_neg at h
  rw [connEvents, List.filterMap_eq_nil_iff]
  intro e he
  cases e with
  | conn cc st =>
      simp only []
      by_cases hcc : cc = c
      · subst hcc; exact absurd he (h st)
      · simp [hcc]
  | routineStarted => rfl
  | routineFinished => rfl

theorem tracker_idleConns_other (s : WebServer) (c cc : Nat) (st : ConnState)
    (h : cc ≠ c) :
    (c ∈ (s.connStateTracker cc st).idleConns) ↔ c ∈ s.idleConns := by
  have h2 : c ≠ cc := Ne.symm h
  cases st <;>
    simp only [WebServer.connStateTracker] <;>
    by_cases hm : cc ∈ s.idleConns <;>
    simp [hm, Finset.mem_insert, Finset.mem_erase, h2]

theorem tracker_idleConns_self (s : WebServer) (c : Nat) (st : ConnState) :
    decide (c ∈ (s.connStateTracker c st).idleConns)
      = memStep (decide (c ∈ s.idleConns)) st := by
  cases st <;>
    simp only [WebServer.connStateTracker, memStep] <;>
    by_cases hm : c ∈ s.idleConns <;>
    simp [hm, Finset.mem_insert, Finset.mem_erase]

theorem tracker_wg (s : WebServer) (c : Nat) (st : ConnState) :
    (s.connStateTracker c st).wg
      = s.wg + deltaOf (decide (c ∈ s.idleConns)) st := by
  cases st <;>
    simp only [WebServer.connStateTracker, deltaOf] <;>
    by_cases hm : c ∈ s.idleConns <;>
    simp [hm] <;> ring

theorem mem_runEvents (tr : List TrackEvent) :
    ∀ (s : WebServer) (c : Nat),
    decide (c ∈ (runEvents s tr).idleConns)
      = memFold (decide (c ∈ s.idleConns)) (connEvents c tr) := by
  induction tr with
  | nil => intro s c; simp [runEvents, memFold, connEvents]
  | cons e tr ih =>
      intro s c
      rw [runEvents_cons]
      cases e with
      | conn cc st =>
          by_cases hc : cc = c
          · subst hc
            have hconn : connEvents cc (TrackEvent.conn cc st :: tr)
                = st :: connEvents cc tr := by
              simp [connEvents]
            have hstep : WebServer.step s (TrackEvent.conn cc st)
                = s.connStateTracker cc st := rfl
            rw [hconn, memFold_cons, hstep, ih, tracker_idleConns_self]
          · have hconn : connEvents c (TrackEvent.conn cc st :: tr)
                = connEvents c tr := by
              simp [connEvents, hc]
            rw [hconn, WebServer.step, ih]
            congr 1
            simp only [tracker_idleConns_other s c cc st hc]
      | routineStarted =>
          have hconn : connEvents c (TrackEvent.routineStarted :: tr)
              = connEvents c tr := rfl
          rw [hconn, WebServer.step, ih]
          rfl
      | routineFinished =>
          have hconn : connEvents c (TrackEvent.routineFinished :: tr)
              = connEvents c tr := rfl
          rw [hconn, WebServer.step, ih]
          rfl

theorem contribFrom_append (l : List ConnState) :
    ∀ (m : Bool) (acc : Int) (st : ConnState),
    contribFrom m acc (l ++ [st])
      = contribFrom m acc l + deltaOf (memFold m l) st := by
  induction l with
  | nil => intro m acc st; simp [contribFrom, memFold]
  | cons st0 l ih =>
      intro m acc st
      rw [List.cons_append, contribFrom, contribFrom, ih, memFold_cons]

theorem netContrib_append (l : List ConnState) (st : ConnState) :
    netContrib (l ++ [st]) = netContrib l + deltaOf (memFold false l) st :=
  contribFrom_append l false 0 st

theorem wg_runEvents (tr : List TrackEvent) :
    (runEvents WebServer.New tr).wg
      = routineBal tr
        + (connsOf tr).sum (fun c => netContrib (connEvents c tr)) := by
  induction tr using List.reverseRecOn with
  | nil => simp [runEvents, routineBal, connsOf, WebServer.New]
  | append_singleton tr e ih =>
      rw [runEvents_append]
      cases e with
      | routineStarted =>
          have hwg : (runEvents (runEvents WebServer.New tr)
                [TrackEvent.routineStarted]).wg
              = (runEvents WebServer.New tr).wg + 1 := rfl
          have hsum : ∀ c ∈ connsOf tr,
              netContrib (connEvents c (tr ++ [TrackEvent.routineStarted]))
                = netContrib (connEvents c tr) := by
            intro c _
            rw [connEvents_append, connEvents_single_started, List.append_nil]
          rw [hwg, ih, routineBal_append_started, connsOf_append_started,
            Finset.sum_congr rfl hsum]
          ring
      | routineFinished =>
          have hwg : (runEvents (runEvents WebServer.New tr)
                [TrackEvent.routineFinished]).wg
              = (runEvents WebServer.New tr).wg - 1 := rfl
          have hsum : ∀ c ∈ connsOf tr,
              netContrib (connEvents c (tr ++ [TrackEvent.routineFinished]))
                = netContrib (connEvents c tr) := by
            intro c _
            rw [connEvents_append, connEvents_single_finished, List.append_nil]
          rw [hwg, ih, routineBal_append_finished, connsOf_append_finished,
            Finset.sum_congr rfl hsum]
          ring
      | conn c st =>
          have hone : runEvents (runEvents WebServer.New tr)
                [TrackEvent.conn c st]
              = (runEvents WebServer.New tr).connStateTracker c st := rfl
          have hinit : decide (c ∈ WebServer.New.idleConns) = false := by
            simp [WebServer.New]
          have hwg : (runEvents (runEvents WebServer.New tr)
                [TrackEvent.conn c st]).wg
              = (runEvents WebServer.New tr).wg
                + deltaOf (memFold false (connEvents c tr)) st := by
            rw [hone, tracker_wg, mem_runEvents, hinit]
          have hself : connEvents c (tr ++ [TrackEvent.conn c st])
              = connEvents c tr ++ [st] := by
            rw [connEvents_append, connEvents_single_self]
          rw [hwg, ih, routineBal_append_conn, connsOf_append_conn]
          by_cases hc : c ∈ connsOf tr
          · have hother : ∀ x ∈ (connsOf tr).erase c,
                netContrib (connEvents x (tr ++ [TrackEvent.conn c st]))
                  = netContrib (connEvents x tr) := by
              intro x hx
              have hxc : x ≠ c := (Finset.mem_erase.mp hx).1
              rw [connEvents_append,
                connEvents_single_other x c st (Ne.symm hxc), List.append_nil]
            have hs1 : (connsOf tr).sum
                  (fun x => netContrib
                    (connEvents x (tr ++ [TrackEvent.conn c st])))
                = netContrib (connEvents c (tr ++ [TrackEvent.conn c st]))
                  + ((connsOf tr).erase c).sum
                    (fun x => netContrib
                      (connEvents x (tr ++ [TrackEvent.conn c st]))) :=
              (Finset.add_sum_erase _ _ hc).symm
            have hs2 : (connsOf tr).sum (fun x => netContrib (connEvents x tr))
                = netContrib (connEvents c tr)
                  + ((connsOf tr).erase c).sum
                    (fun x => netContrib (connEvents x tr)) :=
              (Finset.add_sum_erase _ _ hc).symm
            rw [Finset.insert_eq_self.mpr hc, hs1, hs2,
              Finset.sum_congr rfl hother, hself, netContrib_append]
            ring
          · have hother : ∀ x ∈ connsOf tr,
                netContrib (connEvents x (tr ++ [TrackEvent.conn c st]))
                  = netContrib (connEvents x tr) := by
              intro x hx
              have hxc : x ≠ c := fun hxx => hc (hxx ▸ hx)
              rw [connEvents_append,
                connEvents_single_other x c st (Ne.symm hxc), List.append_nil]
            have hnil : connEvents c tr = [] :=
              connEvents_eq_nil_of_not_mem tr c hc
            rw [Finset.sum_insert hc, Finset.sum_congr rfl hother, hself, hnil,
              netContrib_append]
            simp [netContrib, contribFrom, memFold]
            ring

theorem idleCycles_contrib : ∀ (l : List ConnState), idleCycles l = true →
    ∀ acc : Int, contribFrom true acc l = acc
  | [], h, acc => by simp [idleCycles] at h
  | [st], h, acc => by
      cases st <;> simp [idleCycles] at h <;>
        simp [contribFrom, deltaOf, memStep]
  | st1 :: st2 :: rest, h, acc => by
      cases st1 <;> cases st2 <;> simp [idleCycles] at h
      simp only [contribFrom, memStep, deltaOf]
      rw [idleCycles_contrib rest h]
      norm_num

theorem tailOk_contrib (rest : List ConnState) (h : tailOk rest = true)
    (acc : Int) : contribFrom false acc rest = acc - 2 := by
  cases rest with
  | nil => simp [tailOk] at h
  | cons s t =>
      cases s with
      | Idle =>
          have h2 : idleCycles t = true := by simpa [tailOk] using h
          simp only [contribFrom, memStep, deltaOf]
          rw [idleCycles_contrib t h2]
          norm_num
          omega
      | Closed =>
          cases t with
          | nil => simp [contribFrom, deltaOf, memStep]; ring
          | cons s2 t2 => simp [tailOk] at h
      | Hijacked =>
          cases t with
          | nil => simp [contribFrom, deltaOf, memStep]; ring
          | cons s2 t2 => simp [tailOk] at h
      | New => simp [tailOk] at h
      | Active => simp [tailOk] at h

theorem goodLifecycle_netContrib (l : List ConnState)
    (h : goodLifecycle l = true) : netContrib l = 0 := by
  cases l with
  | nil => simp [goodLifecycle] at h
  | cons s1 t1 =>
      cases s1 <;> try simp [goodLifecycle] at h
      cases t1 with
      | nil => simp [goodLifecycle] at h
      | cons s2 t2 =>
          cases s2 <;> try simp [goodLifecycle] at h
          have h2 : tailOk t2 = true := by simpa [goodLifecycle] using h
          have h3 : netContrib (ConnState.New :: ConnState.Active :: t2)
              = contribFrom false 2 t2 := by
            simp [netContrib, contribFrom, memStep, deltaOf]
          rw [h3, tailOk_contrib t2 h2]
          ring

/-- C1 (amended): starting from a fresh server (counter zero), for every
event trace in which each connection's transition sequence is one of the
two lifecycles the tracker is written for — `New, Active, Closed/Hijacked`,
or `New, Active, Idle` with further `Active, Idle` cycles and a terminal
transition taken from the idle state — and in which the manual
`RoutineStarted`/`RoutineFinished` calls balance, the pending-work counter
is exactly 0 after the last event. -/
theorem counter_drains_on_canonical_lifecycles (tr : List TrackEvent)
    (hconn : ∀ c ∈ connsOf tr, goodLifecycle (connEvents c tr) = true)
    (hbal : routineBal tr = 0) :
    (runEvents WebServer.New tr).wg = 0 := by
  rw [wg_runEvents, hbal, Finset.sum_eq_zero, add_zero]
  intro c hc
  exact goodLifecycle_netContrib _ (hconn c hc)

/-- Witness for the amended drain theorem: a keepalive connection with two
requests, a non-keepalive connection, and one registered routine. -/
theorem counter_drains_witness :
    (∀ c ∈ connsOf goodTrace, goodLifecycle (connEvents c goodTrace) = true)
    ∧ routineBal goodTrace = 0
    ∧ (runEvents WebServer.New goodTrace).wg = 0 :=
  ⟨by decide, by decide,
    counter_drains_on_canonical_lifecycles goodTrace (by decide) (by decide)⟩

/-- C1 (counterexample to the claim as stated): in `cexTrace` the only
connection's sequence ends with a terminal Closed transition and there are
no unbalanced routine calls, yet the counter finishes at 1, not 0: the
connection closed from Active after having been Idle, so its Closed is a
no-op (it is still in the idle set) and the +1 of its last Active is never
repaid. -/
theorem counter_nonzero_on_closed_ending_trace :
    (∀ c ∈ connsOf cexTrace, lastConnState c cexTrace = some ConnState.Closed)
    ∧ routineBal cexTrace = 0
    ∧ (runEvents WebServer.New cexTrace).wg = 1 := by
  refine ⟨by decide, by decide, by decide⟩

theorem memFold_eq_membershipUpd (l : List ConnState) :
    ∀ (b : Bool) (o : Option ConnState),
    (b = true ↔ o = some ConnState.Idle) →
    (memFold b l = true ↔ l.foldl membershipUpd o = some ConnState.Idle) := by
  induction l with
  | nil => intro b o hbo; simpa [memFold] using hbo
  | cons st l ih =>
      intro b o hbo
      rw [memFold_cons, List.foldl_cons]
      cases st with
      | New => exact ih _ _ (by simpa [memStep, membershipUpd] using hbo)
      | Active => exact ih _ _ (by simpa [memStep, membershipUpd] using hbo)
      | Idle => exact ih _ _ (by simp [memStep, membershipUpd])
      | Hijacked => exact ih _ _ (by simp [memStep, membershipUpd])
      | Closed => exact ih _ _ (by simp [memStep, membershipUpd])

/-- C6 (amended): over any trace starting from a fresh server, a connection
is in the tracker's idle set iff an Idle transition has been processed for
it more recently than any Hijacked or Closed transition — Active (and New)
transitions do not remove it from the set. Entries are created on a first
Idle and removed only by a terminal Hijacked/Closed processed while the
connection is in the set. -/
theorem idle_set_membership_characterization (tr : List TrackEvent)
    (c : Nat) :
    c ∈ (runEvents WebServer.New tr).idleConns
      ↔ lastMembershipEvent c tr = some ConnState.Idle := by
  have h1 := mem_runEvents tr WebServer.New c
  have hinit : decide (c ∈ WebServer.New.idleConns) = false := by
    simp [WebServer.New]
  rw [hinit] at h1
  have h2 := memFold_eq_membershipUpd (connEvents c tr) false none (by simp)
  rw [lastMembershipEvent, ← h2, ← h1]
  simp

/-- C6 (counterexample to the claim as stated): after
`New, Active, Idle, Active` the connection's most recently processed state
is Active, yet it is still in the idle set — the tracker never removes a
connection from the set on an Active transition. -/
theorem idle_set_retains_conn_after_active :
    ¬ (0 ∈ (runEvents WebServer.New c6Trace).idleConns
        ↔ lastConnState 0 c6Trace = some ConnState.Idle) := by
  decide

theorem lop_apply_false (l : WebServerListener) (op : LOp)
    (h : l.listening = false) : (LOp.apply l op).listening = false := by
  cases op with
  | listeningQuery => exact h
  | acceptCall u => exact h
  | closeCall r =>
      simp [LOp.apply, WebServerListener.Close, WebServerListener.Listening, h]

theorem runLOps_false (ops : List LOp) :
    ∀ l : WebServerListener, l.listening = false →
    (runLOps l ops).listening = false := by
  induction ops with
  | nil => intro l h; exact h
  | cons op ops ih =>
      intro l h
      exact ih _ (lop_apply_false l op h)

/-- C3: once the accept loop's serve call has returned error `err`, exactly
one outcome is sent on `errChan`; when `err` is `ErrListenerClosed` the
goroutine first waits on the WaitGroup (the `true` flag, i.e. blocks until
the pending-work counter reaches zero) and sends the graceful outcome
(`ErrGracefulShutdown` wrapping `err`); for any other error it sends that
error without waiting. -/
theorem serve_outcome_classification (e u : SrvError)
    (h : e.isListenerClosed = false) :
    (serveGoroutineTail (SrvError.listenerClosed u)).2.length = 1
    ∧ serveGoroutineTail (SrvError.listenerClosed u)
      = (true, [SrvError.gracefulShutdown (SrvError.listenerClosed u)])
    ∧ (serveGoroutineTail e).2.length = 1
    ∧ serveGoroutineTail e = (false, [e]) := by
  refine ⟨rfl, rfl, ?_, ?_⟩ <;>
    simp [serveGoroutineTail, h]

/-- Witness for C3 at a concrete non-intentional error. -/
theorem serve_outcome_classification_witness :
    (SrvError.netErr 0).isListenerClosed = false
    ∧ serveGoroutineTail (SrvError.netErr 0) = (false, [SrvError.netErr 0]) :=
  ⟨rfl,
    (serve_outcome_classification (SrvError.netErr 0) (SrvError.netErr 0)
      rfl).2.2.2⟩

/-- C7: a successful `Listen` returns a listener whose flag is true, and
over any sequence of `Listening`/`Accept`/`Close` operations the flag never
goes from false back to true — with a Boolean flag that starts true this is
exactly "true to false at most once, never false to true". -/
theorem listener_flag_one_shot (bind : Except SrvError Unit)
    (l : WebServerListener) (h : Listen bind = .ok l) :
    l.listening = true
    ∧ ∀ ops more : List LOp, (runLOps l ops).listening = false →
        (runLOps l (ops ++ more)).listening = false := by
  constructor
  · cases bind with
    | error e => simp [Listen] at h
    | ok v =>
        simp only [Listen] at h
        cases h
        rfl
  · intro ops more hfalse
    rw [runLOps, List.foldl_append, ← runLOps, ← runLOps]
    exact runLOps_false more _ hfalse

/-- Witness for C7: a fresh listener, closed once, stays non-listening. -/
theorem listener_flag_one_shot_witness :
    Listen (Except.ok ()) = Except.ok { listening := true }
    ∧ (runLOps { listening := true } [LOp.closeCall none]).listening = false
    ∧ (runLOps { listening := true }
        ([LOp.closeCall none]
          ++ [LOp.listeningQuery,
              LOp.acceptCall (Except.error (SrvError.netErr 0))])).listening
      = false := by
  refine ⟨rfl, by decide, ?_⟩
  exact (listener_flag_one_shot (Except.ok ()) { listening := true } rfl).2
    [LOp.closeCall none]
    [LOp.listeningQuery, LOp.acceptCall (Except.error (SrvError.netErr 0))]
    (by decide)

/-- C8: `Listen` on a coordinator whose listener is live returns the
already-listening error and leaves the state untouched; `Serve` on a
coordinator whose listener is not listening (as before any successful
`Listen`) returns the not-listening error and starts no accept loop. -/
theorem sequencing_errors_synchronous (s s2 : WebServer) (addr : String)
    (bind : Except SrvError Unit)
    (h : s.listener.Listening = true) (h2 : s2.listener.Listening = false) :
    s.Listen addr bind = (s, some SrvError.listenerAlreadyCreated)
    ∧ s2.Serve = (s2, some SrvError.listenerNotYetCreated, false) := by
  constructor
  · simp [WebServer.Listen, h]
  · simp [WebServer.Serve, h2]

/-- Witness for C8: a live coordinator and the fresh `New()` coordinator. -/
theorem sequencing_errors_synchronous_witness :
    listeningServer.listener.Listening = true
    ∧ WebServer.New.listener.Listening = false
    ∧ listeningServer.Listen "addr" (Except.ok ())
      = (listeningServer, some SrvError.listenerAlreadyCreated)
    ∧ WebServer.New.Serve
      = (WebServer.New, some SrvError.listenerNotYetCreated, false) :=
  ⟨rfl, rfl,
    (sequencing_errors_synchronous listeningServer WebServer.New "addr"
      (Except.ok ()) rfl rfl).1,
    (sequencing_errors_synchronous listeningServer WebServer.New "addr"
      (Except.ok ()) rfl rfl).2⟩

/-- C9 (counterexample to the claim as stated): a coordinator that has
completed a Listen–Shutdown session (its listener flag is back at false)
accepts a subsequent `Listen` on the very same instance: the call returns
no error and the coordinator is listening again. -/
theorem relisten_succeeds_after_shutdown :
    (WebServer.New.Listen "addr" (Except.ok ())).2 = none
    ∧ postShutdownServer.listener.Listening = false
    ∧ (postShutdownServer.Listen "addr" (Except.ok ())).2 = none
    ∧ (postShutdownServer.Listen "addr"
        (Except.ok ())).1.listener.Listening = true := by
  refine ⟨rfl, rfl, rfl, rfl⟩

/-- C9 (amended): what is one-shot is the listener object, not the
coordinator. A closed listener never listens again under any further
operations, but the coordinator itself is reusable: whenever no live
listener exists, a `Listen` with a successful bind succeeds on the same
instance and installs a fresh listening listener. -/
theorem listener_dead_coordinator_reusable (s : WebServer) (addr : String)
    (h : s.listener.Listening = false) :
    (s.Listen addr (Except.ok ())).2 = none
    ∧ (s.Listen addr (Except.ok ())).1.listener.Listening = true
    ∧ ∀ ops : List LOp, (runLOps s.listener ops).listening = false := by
  have h2 : s.listener.listening = false := h
  refine ⟨?_, ?_, fun ops => runLOps_false ops s.listener h⟩ <;>
    simp [WebServer.Listen, WebServerListener.Listening, h2, listenPackage,
      Listen]

/-- Witness for the amended C9 at the fresh coordinator. -/
theorem listener_dead_coordinator_reusable_witness :
    WebServer.New.listener.Listening = false
    ∧ (WebServer.New.Listen "addr" (Except.ok ())).2 = none :=
  ⟨rfl, (listener_dead_coordinator_reusable WebServer.New "addr" rfl).1⟩

/-- C10: `Shutdown` reports nothing: the listener's close error is
discarded (the result does not depend on it), the pending-work counter,
idle set and address are untouched; when not listening it is a complete
no-op, and when listening it only disables keep-alives and flips the
listener's flag to false. -/
theorem shutdown_frame (s : WebServer) (r r2 : Option SrvError) :
    (s.Shutdown r).wg = s.wg
    ∧ (s.Shutdown r).idleConns = s.idleConns
    ∧ (s.Shutdown r).addr = s.addr
    ∧ s.Shutdown r = s.Shutdown r2
    ∧ (s.listener.Listening = false → s.Shutdown r = s)
    ∧ (s.listener.Listening = true →
        (s.Shutdown r).keepAlives = false
        ∧ (s.Shutdown r).listener = { listening := false }) := by
  by_cases h : s.listener.Listening = true
  · have h2 : s.listener.listening = true := h
    refine ⟨?_, ?_, ?_, ?_, ?_, ?_⟩ <;>
      simp [WebServer.Shutdown, WebServerListener.Close,
        WebServerListener.Listening, h2]
  · have h2 : s.listener.listening = false := by
      revert h
      cases hl : s.listener.listening <;> simp [WebServerListener.Listening, hl]
    refine ⟨?_, ?_, ?_, ?_, ?_, ?_⟩ <;>
      simp [WebServer.Shutdown, WebServerListener.Listening, h2]

/-- Witness for C10 in both regimes: a live coordinator is closed with
keep-alives disabled, a fresh one is untouched. -/
theorem shutdown_frame_witness :
    listeningServer.listener.Listening = true
    ∧ (listeningServer.Shutdown (some (SrvError.netErr 0))).keepAlives = false
    ∧ WebServer.New.listener.Listening = false
    ∧ WebServer.New.Shutdown none = WebServer.New :=
  ⟨rfl,
    ((shutdown_frame listeningServer (some (SrvError.netErr 0))
      none).2.2.2.2.2 rfl).1,
    rfl,
    (shutdown_frame WebServer.New none none).2.2.2.2.1 rfl⟩
